import Mathlib

/-!
Verification of the request/response core of a text-generation serving
engine (`cpp/serve/request.h`): the `Request` value, the tokenization
transform `FromUntokenized`, and the `RequestStreamOutput` streaming event.

The header under `src/` declares the two entities and their fields; the
constructor bodies (`Request::Request`, `Request::FromUntokenized`,
`RequestStreamOutput::RequestStreamOutput`) live in a translation unit not
included in the sources, so those operations are modelled from the spec
(each such definition is marked `Modelled from the spec:`).
-/

namespace MlcServe

/-- Modelled from the spec: the multi-modal input variant `Data`
(declared in the external `data.h`, not among the sources): polymorphic
over raw text, token-id sequence, and embedding; exposes a
"token length if known" query and an "is already tokenized" predicate. -/
inductive Data where
  | text (s : String)
  | tokens (ids : List Nat)
  | embedding (len : Nat)
  deriving DecidableEq, Repr

/-- Modelled from the spec: the "token length if known" query of a `Data`
unit. Raw text has no known token length. -/
def Data.lengthIfKnown : Data → Option Nat
  | .text _ => none
  | .tokens ids => some ids.length
  | .embedding len => some len

/-- Modelled from the spec: the "is already tokenized" predicate of a
`Data` unit: token-id sequences and embeddings are already in
tokenized/embedding form, raw text is not. -/
def Data.isTokenized : Data → Bool
  | .text _ => false
  | .tokens _ => true
  | .embedding _ => true

/-- The known token length of a unit (0 stands in for the unknown case,
which the callers below never hit: they query it only on tokenized units). -/
def Data.tokenLength (d : Data) : Nat :=
  d.lengthIfKnown.getD 0

/-- Modelled from the spec: `GenerationConfig` is an opaque immutable bag
of sampling and stopping parameters, only stored and forwarded by this
core, never inspected. -/
structure GenerationConfig where
  raw : Nat
  deriving DecidableEq, Repr

/-- The `RequestNode` record of `request.h`: unique string id, ordered
multi-modal inputs, cached equivalent total input length with in-class
initializer `= -1` (the "unknown" sentinel), and the generation
configuration. -/
structure RequestNode where
  id : String
  inputs : List Data
  input_total_length : Int := -1
  generation_cfg : GenerationConfig
  deriving DecidableEq, Repr

/-- The error kinds of the core: malformed construction input, and
external tokenizer failure. -/
inductive RequestError where
  | invalidArgument
  | tokenizationError
  deriving DecidableEq, Repr

/-- Modelled from the spec: the external tokenizer exposes a single
operation, "tokenize raw text to a token-id sequence, or fail". -/
def Tokenizer : Type := String → Option (List Nat)

/-- The total-length computation: the sum of the per-unit token lengths
when every unit is already tokenized, and the -1 sentinel otherwise. -/
def totalLength (inputs : List Data) : Int :=
  if inputs.all Data.isTokenized then ((inputs.map Data.tokenLength).sum : Nat) else -1

/-- Modelled from the spec: `Request::Request` (`Construct`): fails with
`InvalidArgument` if the id is empty or the inputs are empty; otherwise
produces a value whose fields equal the arguments and whose
`input_total_length` is the unknown sentinel if any input unit is not
already tokenized, or the computed sum of per-unit token lengths
otherwise. -/
def Request.construct (id : String) (inputs : List Data) (generation_cfg : GenerationConfig) :
    Except RequestError RequestNode :=
  if id = "" ∨ inputs = [] then .error .invalidArgument
  else .ok { id := id, inputs := inputs,
             input_total_length := totalLength inputs,
             generation_cfg := generation_cfg }

/-- Modelled from the spec: tokenization of one input unit inside
`FromUntokenized`: a raw-text unit is replaced by its tokenized
equivalent via the tokenizer (failing with `TokenizationError` when the
tokenizer fails); units already in tokenized/embedding form pass through
unchanged. -/
def tokenizeData (tok : Tokenizer) : Data → Except RequestError Data
  | .text s =>
      match tok s with
      | some ids => .ok (.tokens ids)
      | none => .error .tokenizationError
  | .tokens ids => .ok (.tokens ids)
  | .embedding len => .ok (.embedding len)

/-- Modelled from the spec: the unit-by-unit traversal of the input
sequence inside `FromUntokenized`, all-or-nothing: the first tokenizer
failure aborts the whole traversal. -/
def tokenizeInputs (tok : Tokenizer) : List Data → Except RequestError (List Data)
  | [] => .ok []
  | d :: rest =>
      match tokenizeData tok d with
      | .error e => .error e
      | .ok d' =>
          match tokenizeInputs tok rest with
          | .error e => .error e
          | .ok rest' => .ok (d' :: rest')

/-- Modelled from the spec: `Request::FromUntokenized`: returns a new
`Request` with the same id and generation configuration, the tokenized
inputs, and `input_total_length` recomputed as the exact sum of all unit
lengths; fails with `TokenizationError` when the tokenizer fails on any
unit, returning no partial request. -/
def Request.FromUntokenized (tok : Tokenizer) (r : RequestNode) :
    Except RequestError RequestNode :=
  match tokenizeInputs tok r.inputs with
  | .error e => .error e
  | .ok inputs =>
      .ok { id := r.id, inputs := inputs,
            input_total_length := ((inputs.map Data.tokenLength).sum : Nat),
            generation_cfg := r.generation_cfg }

/-- The `RequestStreamOutputObj` record of `request.h`: the id of the
originating request, the newly generated tokens since the last callback
invocation, and the finish reason — an `Optional<String>`, present only
when the request has finished. -/
structure RequestStreamOutputObj where
  request_id : String
  delta_tokens : List Nat
  finish_reason : Option String
  deriving DecidableEq, Repr

/-- Modelled from the spec: `RequestStreamOutput::RequestStreamOutput`
(`Construct`): a plain immutable event value built from the three
arguments; construction never fails. -/
def RequestStreamOutput.construct (request_id : String) (delta_tokens : List Nat)
    (finish_reason : Option String) : RequestStreamOutputObj :=
  { request_id := request_id, delta_tokens := delta_tokens, finish_reason := finish_reason }

/-- Modelled from the spec: the producer emission discipline for one
request (the scheduler/executor is out of scope in the sources): zero or
more non-terminal events each carrying a chunk of newly generated tokens
and no finish reason, terminated by exactly one event carrying the finish
reason. -/
def emitTrace (request_id : String) (deltas : List (List Nat)) (reason : String) :
    List RequestStreamOutputObj :=
  deltas.map (fun d => RequestStreamOutput.construct request_id d none) ++
    [RequestStreamOutput.construct request_id [] (some reason)]

/-! Concrete values used by the witnesses. -/

def cfg0 : GenerationConfig := { raw := 0 }

def tok0 : Tokenizer := fun s => if s = "hi" then some [72, 105] else none

def tokFail : Tokenizer := fun _ => none

def r1 : RequestNode := { id := "r1", inputs := [Data.text "hi"], generation_cfg := cfg0 }

def r1tok : RequestNode :=
  { id := "r1", inputs := [Data.tokens [72, 105]], input_total_length := 2,
    generation_cfg := cfg0 }

/-! Helper lemmas. -/

lemma tokenizeData_ok_isTokenized (tok : Tokenizer) (d d' : Data)
    (h : tokenizeData tok d = .ok d') : d.isTokenized = true → d' = d := by
  cases d with
  | text s => intro hc; simp [Data.isTokenized] at hc
  | tokens ids => intro _; simpa [tokenizeData] using h.symm
  | embedding len => intro _; simpa [tokenizeData] using h.symm

lemma tokenizeData_ok_tokenized (tok : Tokenizer) (d d' : Data)
    (h : tokenizeData tok d = .ok d') : d'.isTokenized = true := by
  cases d with
  | text s =>
      cases htok : tok s with
      | none => simp [tokenizeData, htok] at h
      | some ids =>
          simp [tokenizeData, htok] at h
          simp [← h, Data.isTokenized]
  | tokens ids =>
      simp [tokenizeData] at h
      simp [← h, Data.isTokenized]
  | embedding len =>
      simp [tokenizeData] at h
      simp [← h, Data.isTokenized]

lemma tokenizeInputs_ok_forall₂ (tok : Tokenizer) :
    ∀ {l l' : List Data}, tokenizeInputs tok l = .ok l' →
      List.Forall₂ (fun d d' => tokenizeData tok d = .ok d') l l' := by
  intro l
  induction l with
  | nil =>
      intro l' h
      simp [tokenizeInputs] at h
      subst h
      exact List.Forall₂.nil
  | cons d rest ih =>
      intro l' h
      simp only [tokenizeInputs] at h
      cases hd : tokenizeData tok d with
      | error e => rw [hd] at h; exact absurd h (by simp)
      | ok d' =>
          rw [hd] at h
          cases hr : tokenizeInputs tok rest with
          | error e => rw [hr] at h; exact absurd h (by simp)
          | ok rest' =>
              rw [hr] at h
              simp at h
              rw [← h]
              exact List.Forall₂.cons hd (ih hr)

lemma tokenizeInputs_all_tokenized (tok : Tokenizer) :
    ∀ {l : List Data}, (∀ d ∈ l, d.isTokenized = true) → tokenizeInputs tok l = .ok l := by
  intro l
  induction l with
  | nil => intro _; simp [tokenizeInputs]
  | cons d rest ih =>
      intro h
      have hd : d.isTokenized = true := h d (List.mem_cons_self d rest)
      have hd' : tokenizeData tok d = .ok d := by
        cases d with
        | text s => simp [Data.isTokenized] at hd
        | tokens ids => simp [tokenizeData]
        | embedding len => simp [tokenizeData]
      have hr : tokenizeInputs tok rest = .ok rest :=
        ih (fun d hm => h d (List.mem_cons_of_mem _ hm))
      simp [tokenizeInputs, hd', hr]

lemma tokenizeInputs_fail (tok : Tokenizer) :
    ∀ {l : List Data}, (∃ s, Data.text s ∈ l ∧ tok s = none) →
      tokenizeInputs tok l = .error .tokenizationError := by
  intro l
  induction l with
  | nil => rintro ⟨s, hm, _⟩; simp at hm
  | cons d rest ih =>
      rintro ⟨s, hm, hfail⟩
      rcases List.mem_cons.mp hm with hh | ht
      · simp [tokenizeInputs, ← hh, tokenizeData, hfail]
      · cases hd : tokenizeData tok d with
        | error e =>
            have : e = .tokenizationError := by
              cases d with
              | text s2 =>
                  cases htok : tok s2 with
                  | none => simp [tokenizeData, htok] at hd; simp [hd]
                  | some ids => simp [tokenizeData, htok] at hd
              | tokens ids => simp [tokenizeData] at hd
              | embedding len => simp [tokenizeData] at hd
            simp [tokenizeInputs, hd, this]
        | ok d' => simp [tokenizeInputs, hd, ih ⟨s, ht, hfail⟩]

lemma tokenizeInputs_ok_all_tokenized (tok : Tokenizer) :
    ∀ {l l' : List Data}, tokenizeInputs tok l = .ok l' → ∀ d ∈ l', d.isTokenized = true := by
  intro l
  induction l with
  | nil =>
      intro l' h d hd
      simp [tokenizeInputs] at h
      subst h
      simp at hd
  | cons d0 rest ih =>
      intro l' h d hd
      simp only [tokenizeInputs] at h
      cases hd0 : tokenizeData tok d0 with
      | error e => rw [hd0] at h; exact absurd h (by simp)
      | ok d0' =>
          rw [hd0] at h
          cases hr : tokenizeInputs tok rest with
          | error e => rw [hr] at h; exact absurd h (by simp)
          | ok rest' =>
              rw [hr] at h
              simp at h
              rw [← h] at hd
              rcases List.mem_cons.mp hd with hh | ht
              · rw [hh]; exact tokenizeData_ok_tokenized tok d0 d0' hd0
              · exact ih hr d ht

def tok0alt : Tokenizer := fun s => tok0 s

/-! Claim theorems. -/

/-- C9: the `input_total_length` field of `RequestNode` defaults to -1
(the unknown sentinel) at the declaration level: a node built by
supplying only `id`, `inputs` and `generation_cfg` starts in the
"total length unknown" state. -/
theorem input_total_length_default_sentinel (i : String) (l : List Data)
    (cfg : GenerationConfig) :
    ({ id := i, inputs := l, generation_cfg := cfg } : RequestNode).input_total_length = -1 :=
  rfl

/-- C10: `finish_reason` is stored as an optional string, so absence is
represented distinctly from every string value: a terminal event whose
reason is the empty string differs from a non-terminal event with no
finish reason, both in the field and as whole event values. -/
theorem finish_reason_absence_distinct (rid : String) (dt : List Nat) :
    (RequestStreamOutput.construct rid dt (some "")).finish_reason ≠
        (RequestStreamOutput.construct rid dt none).finish_reason ∧
      RequestStreamOutput.construct rid dt (some "") ≠
        RequestStreamOutput.construct rid dt none ∧
      (RequestStreamOutput.construct rid dt (some "")).finish_reason.isSome = true ∧
      (RequestStreamOutput.construct rid dt none).finish_reason.isSome = false := by
  refine ⟨by simp [RequestStreamOutput.construct], ?_, rfl, rfl⟩
  intro h
  have := congrArg RequestStreamOutputObj.finish_reason h
  simp [RequestStreamOutput.construct] at this

/-- C8: constructing a `RequestStreamOutput` (a total function, so it
never fails) yields an event whose `request_id`, `delta_tokens` and
`finish_reason` fields equal the arguments, preserving the
presence/absence distinction of `finish_reason`. -/
theorem streamOutput_construct_fields (rid : String) (dt : List Nat)
    (fr : Option String) :
    (RequestStreamOutput.construct rid dt fr).request_id = rid ∧
      (RequestStreamOutput.construct rid dt fr).delta_tokens = dt ∧
      (RequestStreamOutput.construct rid dt fr).finish_reason = fr ∧
      ((RequestStreamOutput.construct rid dt fr).finish_reason.isSome ↔ fr.isSome) :=
  ⟨rfl, rfl, rfl, Iff.rfl⟩

/-- C4: for a trace of stream events emitted for one request id, the
concatenation of the `delta_tokens` in emission order equals the full
generated token sequence, exactly one event carries a present
`finish_reason`, that event is the last one (no further event follows
it), all preceding events carry no finish reason, and every event in the
trace carries the request id. -/
theorem emitTrace_stream_invariants (rid : String) (deltas : List (List Nat))
    (reason : String) :
    ((emitTrace rid deltas reason).map RequestStreamOutputObj.delta_tokens).flatten =
        deltas.flatten ∧
      (emitTrace rid deltas reason).countP (fun e => e.finish_reason.isSome) = 1 ∧
      (emitTrace rid deltas reason).getLast? =
        some (RequestStreamOutput.construct rid [] (some reason)) ∧
      (∀ e ∈ (emitTrace rid deltas reason).dropLast, e.finish_reason = none) ∧
      (∀ e ∈ emitTrace rid deltas reason, e.request_id = rid) := by
  induction deltas with
  | nil =>
      refine ⟨by simp [emitTrace, RequestStreamOutput.construct],
        by simp [emitTrace, RequestStreamOutput.construct], ?_, ?_, ?_⟩
      · simp [emitTrace]
      · simp [emitTrace]
      · intro e he
        simp [emitTrace, RequestStreamOutput.construct] at he
        simp [he, RequestStreamOutput.construct]
  | cons d ds ih =>
      obtain ⟨ih1, ih2, ih3, ih4, ih5⟩ := ih
      have hstep : emitTrace rid (d :: ds) reason =
          RequestStreamOutput.construct rid d none :: emitTrace rid ds reason := by
        simp [emitTrace]
      refine ⟨?_, ?_, ?_, ?_, ?_⟩
      · simp only [hstep, List.map_cons, List.flatten_cons, ih1]
        simp [RequestStreamOutput.construct]
      · simp only [hstep, List.countP_cons]
        simp [RequestStreamOutput.construct, ih2]
      · rw [hstep, List.getLast?_cons, ih3]
        simp
      · intro e he
        rw [hstep] at he
        have hne : emitTrace rid ds reason ≠ [] := by simp [emitTrace]
        rw [List.dropLast_cons_of_ne_nil hne] at he
        rcases List.mem_cons.mp he with hh | ht
        · simp [hh, RequestStreamOutput.construct]
        · exact ih4 e ht
      · intro e he
        rw [hstep] at he
        rcases List.mem_cons.mp he with hh | ht
        · simp [hh, RequestStreamOutput.construct]
        · exact ih5 e ht

/-- C1: on success, `FromUntokenized` returns a new request with the same
id and generation configuration, each input unit mapped by the per-unit
tokenization (raw text replaced by its tokenized equivalent,
tokenized/embedding units passed through unchanged), every resulting unit
tokenized, and `input_total_length` equal to the exact sum of the token
lengths of the resulting units — a concrete non-negative value, so the -1
sentinel never survives the call. -/
theorem fromUntokenized_success_spec (tok : Tokenizer) (r r' : RequestNode)
    (h : Request.FromUntokenized tok r = .ok r') :
    r'.id = r.id ∧ r'.generation_cfg = r.generation_cfg ∧
      List.Forall₂ (fun d d' => tokenizeData tok d = .ok d') r.inputs r'.inputs ∧
      (∀ d ∈ r'.inputs, d.isTokenized = true) ∧
      r'.input_total_length = ((r'.inputs.map Data.tokenLength).sum : Nat) ∧
      0 ≤ r'.input_total_length := by
  unfold Request.FromUntokenized at h
  cases hti : tokenizeInputs tok r.inputs with
  | error e => rw [hti] at h; exact absurd h (by simp)
  | ok inputs =>
      rw [hti] at h
      simp only [Except.ok.injEq] at h
      subst h
      refine ⟨rfl, rfl, ?_, ?_, rfl, ?_⟩
      · exact tokenizeInputs_ok_forall₂ tok hti
      · intro d hd
        exact tokenizeInputs_ok_all_tokenized tok hti d hd
      · exact Int.natCast_nonneg _

/-- Witness for C1 at the spec scenario: request "r1" with the single raw
text input "hi" under a tokenizer mapping "hi" to [72, 105]. -/
theorem fromUntokenized_success_spec_witness :
    r1tok.id = r1.id ∧ r1tok.generation_cfg = r1.generation_cfg ∧
      r1tok.input_total_length = ((r1tok.inputs.map Data.tokenLength).sum : Nat) ∧
      0 ≤ r1tok.input_total_length ∧
      r1tok.inputs = [Data.tokens [72, 105]] ∧ r1tok.input_total_length = 2 ∧
      r1tok.id = "r1" := by
  have h := fromUntokenized_success_spec tok0 r1 r1tok rfl
  exact ⟨h.1, h.2.1, h.2.2.2.2.1, h.2.2.2.2.2, rfl, rfl, rfl⟩

/-- C2: `Construct` fails with `InvalidArgument` iff the id is empty or
the inputs are empty; every non-failing call produces a request whose
id, inputs and generation configuration exactly equal the arguments, and
whose `input_total_length` is the -1 sentinel iff at least one input unit
is not already tokenized and otherwise equals the sum of per-unit token
lengths. -/
theorem construct_spec (i : String) (inputs : List Data) (cfg : GenerationConfig) :
    (Request.construct i inputs cfg = .error .invalidArgument ↔ i = "" ∨ inputs = []) ∧
      ∀ r, Request.construct i inputs cfg = .ok r →
        r.id = i ∧ r.inputs = inputs ∧ r.generation_cfg = cfg ∧
          (r.input_total_length = -1 ↔ ∃ d ∈ inputs, d.isTokenized = false) ∧
          ((∀ d ∈ inputs, d.isTokenized = true) →
            r.input_total_length = ((inputs.map Data.tokenLength).sum : Nat)) := by
  constructor
  · unfold Request.construct
    split
    case isTrue hcond => simp [hcond]
    case isFalse hcond => simp [hcond]
  · intro r hr
    unfold Request.construct at hr
    split at hr
    · exact absurd hr (by simp)
    · simp only [Except.ok.injEq] at hr
      subst hr
      refine ⟨rfl, rfl, rfl, ?_, ?_⟩
      · show totalLength inputs = -1 ↔ _
        unfold totalLength
        split
        case isTrue hall =>
          constructor
          · intro hcontra
            have hnn := Int.natCast_nonneg ((inputs.map Data.tokenLength).sum)
            omega
          · rintro ⟨d, hd, hfalse⟩
            have := List.all_eq_true.mp hall d hd
            simp [hfalse] at this
        case isFalse hall =>
          constructor
          · intro _
            have hex : ∃ d ∈ inputs, ¬(d.isTokenized = true) := by
              by_contra hc
              push_neg at hc
              exact hall (List.all_eq_true.mpr hc)
            obtain ⟨d, hd, hdt⟩ := hex
            exact ⟨d, hd, by simpa using hdt⟩
          · intro _; rfl
      · intro hall
        show totalLength inputs = _
        unfold totalLength
        rw [if_pos (List.all_eq_true.mpr hall)]

/-- Witness for C2: the accepted call on "r1" with the single raw text
input "hi", whose total length is the -1 sentinel. -/
theorem construct_spec_witness :
    r1.id = "r1" ∧ r1.inputs = [Data.text "hi"] ∧ r1.generation_cfg = cfg0 ∧
      r1.input_total_length = -1 := by
  have h := (construct_spec "r1" [Data.text "hi"] cfg0).2 r1 rfl
  exact ⟨h.1, h.2.1, h.2.2.1, h.2.2.2.1.mpr ⟨Data.text "hi", by decide, by decide⟩⟩

/-- C3: if the tokenizer fails on any raw-text input unit of the request,
`FromUntokenized` fails with `TokenizationError` and returns no partial
request (the result is the error, never an `ok`); the argument request is
untouched (the transform is a pure function of it). -/
theorem fromUntokenized_failure_spec (tok : Tokenizer) (r : RequestNode)
    (h : ∃ s, Data.text s ∈ r.inputs ∧ tok s = none) :
    Request.FromUntokenized tok r = .error .tokenizationError := by
  unfold Request.FromUntokenized
  rw [tokenizeInputs_fail tok h]

/-- Witness for C3: the request "r1" under the always-failing tokenizer. -/
theorem fromUntokenized_failure_spec_witness :
    Request.FromUntokenized tokFail r1 = .error .tokenizationError :=
  fromUntokenized_failure_spec tokFail r1 ⟨"hi", by decide, rfl⟩

/-- C5: `FromUntokenized` is a no-op on already-tokenized data: on a
request all of whose input units are tokenized (and whose cached total
length is the one the constructors compute, an invariant of every
constructed request), it succeeds and returns a request equal in all
fields to its argument. -/
theorem fromUntokenized_idempotent (tok : Tokenizer) (r : RequestNode)
    (h1 : ∀ d ∈ r.inputs, d.isTokenized = true)
    (h2 : r.input_total_length = totalLength r.inputs) :
    Request.FromUntokenized tok r = .ok r := by
  have hti := tokenizeInputs_all_tokenized tok h1
  have hall : r.inputs.all Data.isTokenized = true := List.all_eq_true.mpr h1
  have hlen : r.input_total_length = ((r.inputs.map Data.tokenLength).sum : Nat) := by
    rw [h2]; unfold totalLength; rw [if_pos hall]
  unfold Request.FromUntokenized
  rw [hti]
  dsimp only
  rw [← hlen]

/-- Witness for C5: the fully tokenized request with inputs
[tokens [72, 105]] and total length 2 is returned unchanged. -/
theorem fromUntokenized_idempotent_witness :
    Request.FromUntokenized tok0 r1tok = .ok r1tok :=
  fromUntokenized_idempotent tok0 r1tok (by decide) (by decide)

/-- C6: `FromUntokenized` is deterministic: two runs on the same request
with tokenizers in the same state (mapping every string identically)
produce identical results — identical inputs and identical
`input_total_length`. -/
theorem fromUntokenized_deterministic (tok1 tok2 : Tokenizer) (r : RequestNode)
    (htok : ∀ s, tok1 s = tok2 s) :
    Request.FromUntokenized tok1 r = Request.FromUntokenized tok2 r := by
  rw [funext htok]

/-- Witness for C6: two extensionally equal tokenizers give the same
result on the request "r1". -/
theorem fromUntokenized_deterministic_witness :
    Request.FromUntokenized tok0 r1 = Request.FromUntokenized tok0alt r1 :=
  fromUntokenized_deterministic tok0 tok0alt r1 (fun _ => rfl)

/-- C7: a request is immutable: `FromUntokenized` never mutates its
argument (it is a pure function of the request value) and on success
produces a new request value carrying the same id; in particular the
original request can be re-dispatched — re-running the transform on it
with any tokenizer in the same state reproduces the very same result. -/
theorem request_immutable_new_value (tok : Tokenizer) (r r' : RequestNode)
    (h : Request.FromUntokenized tok r = .ok r') :
    r'.id = r.id ∧
      ∀ tok2 : Tokenizer, (∀ s, tok2 s = tok s) →
        Request.FromUntokenized tok2 r = .ok r' := by
  constructor
  · unfold Request.FromUntokenized at h
    cases hti : tokenizeInputs tok r.inputs with
    | error e => rw [hti] at h; exact absurd h (by simp)
    | ok inputs =>
        rw [hti] at h
        simp only [Except.ok.injEq] at h
        rw [← h]
  · intro tok2 htok
    rw [funext htok]
    exact h

/-- Witness for C7: re-dispatching the request "r1" to a tokenizer in the
same state reproduces the tokenized result, which carries the same id. -/
theorem request_immutable_new_value_witness :
    r1tok.id = r1.id ∧ Request.FromUntokenized tok0alt r1 = .ok r1tok := by
  have h := request_immutable_new_value tok0 r1 r1tok rfl
  exact ⟨h.1, h.2 tok0alt (fun _ => rfl)⟩

end MlcServe
